import Mathlib

/-!
Shallow embedding of the EURP telegram bot (src/index.js).

The source file holds two variants of the same bot, concatenated:
  * a subscription-push variant (provider.on(filter, ...), lines 1-156), and
  * a poll-by-range variant (provider.on("block", ...), lines 157-328).
The helper functions `getTokenMeta`, `formatAmount`, `txLink` and `handleLog`
are byte-identical between the two variants and are embedded once.

External collaborators (ethers provider calls, the Telegram bot transport,
p-retry) are modelled as oracles: each external call site reads its outcome
from an explicit environment record, so a pass of the pipeline is a pure
state transition.  Machine integers are modelled as Int/Nat (JS numbers used
here are integral block heights and uint256 amounts).
-/

namespace EurpBot

/-- The canonical zero address literal `ZERO` from handleLog. -/
def ZERO : String := "0x0000000000000000000000000000000000000000"

/-- `ethers.id("Transfer(address,address,uint256)")`: the keccak-256 hash of the
Transfer event signature, a fixed well-known constant. -/
def TRANSFER_TOPIC : String :=
  "0xddf252ad1be2c89b69c2b068fc378daa952ba7f163c4a11628f55a4df523b3ef"

/-- `s.take n` on code units (all strings here are ASCII), written on the
underlying character list so that it reduces definitionally. -/
def strTake (s : String) (n : Nat) : String := String.mk (s.data.take n)

/-- `s.drop n` on code units, written on the underlying character list. -/
def strDrop (s : String) (n : Nat) : String := String.mk (s.data.drop n)

/-- JavaScript `String.prototype.toLowerCase` restricted to the ASCII hex
strings the bot compares (addresses). -/
def jsToLower (s : String) : String := String.mk (s.data.map Char.toLower)

/-- `ethers.getAddress`: checksum normalisation of an address.  No claim
depends on address case normalisation, so it is embedded as the identity on
the (already normalised) address strings used throughout. -/
def getAddress (a : String) : String := a

/-- A raw log entry as delivered by the provider: emitting contract address,
topics, data payload, transaction hash, block height. -/
structure Log where
  address : String
  topics : List String
  data : String
  transactionHash : String
  blockNumber : Int
deriving DecidableEq, Repr

/-- A decoded Transfer event: `parsed.args.from`, `parsed.args.to`,
`parsed.args.value` (field `from` is a Lean keyword, hence `fromAddr`). -/
structure TransferEvent where
  fromAddr : String
  toAddr : String
  value : Nat
deriving DecidableEq, Repr

/-- Value of one hex digit, or none for a non-hex character. -/
def hexDigitVal (c : Char) : Option Nat :=
  if '0' ≤ c ∧ c ≤ '9' then some (c.toNat - '0'.toNat)
  else if 'a' ≤ c ∧ c ≤ 'f' then some (c.toNat - 'a'.toNat + 10)
  else if 'A' ≤ c ∧ c ≤ 'F' then some (c.toNat - 'A'.toNat + 10)
  else none

/-- Big-endian accumulation of a hex digit string. -/
def hexChars : List Char → Nat → Option Nat
  | [], acc => some acc
  | c :: cs, acc =>
    match hexDigitVal c with
    | some d => hexChars cs (acc * 16 + d)
    | none => none

/-- Decode one 32-byte ABI word ("0x" followed by 64 hex characters) into a
Nat; fails on any other shape, mirroring the deterministic decode failure of
`Interface.parseLog` on a malformed data payload. -/
def parseHexWord (s : String) : Option Nat :=
  if s.length = 66 ∧ strTake s 2 = "0x" then hexChars (s.data.drop 2) 0 else none

/-- An indexed address argument is the low 20 bytes of its 32-byte topic:
the last 40 of the topic's 66 characters. -/
def topicToAddress (t : String) : String := "0x" ++ strDrop t 26

/-- `iface.parseLog({ topics, data })` for the three-argument Transfer event:
succeeds only when the log has exactly three topics, the first equals the
Transfer signature hash, the indexed topics are 32-byte words and the data
payload decodes as one 32-byte word.  Any mismatch throws in the source
(a DecodeError), embedded as `none`. -/
def parseLogTransfer (log : Log) : Option TransferEvent :=
  match log.topics with
  | [t0, t1, t2] =>
    if t0 = TRANSFER_TOPIC ∧ t1.length = 66 ∧ t2.length = 66 then
      match parseHexWord log.data with
      | some v => some ⟨topicToAddress t1, topicToAddress t2, v⟩
      | none => none
    else none
  | _ => none

/-- Classification of a decoded transfer, read off handleLog's control flow:
the early return for ordinary transfers is `Ignored`, and the ternary
`from.toLowerCase() === ZERO ? Mint : Burn` gives the other two cases. -/
inductive Classification where
  | Mint
  | Burn
  | Ignored
deriving DecidableEq, Repr

/-- Lines 73-78 of handleLog: return (Ignored) when neither side is the zero
address, otherwise Mint when the sender is zero, else Burn. -/
def classify (fr toA : String) : Classification :=
  if jsToLower fr ≠ ZERO ∧ jsToLower toA ≠ ZERO then .Ignored
  else if jsToLower fr = ZERO then .Mint
  else .Burn

/-- Token metadata `{ symbol, decimals }`.  The source also stores a
`fetchedAt: Date.now()` timestamp that is never read; it is dropped here. -/
structure TokenMeta where
  symbol : String
  decimals : Nat
deriving DecidableEq, Repr

/-- The fallback metadata built in handleLog's catch around getTokenMeta. -/
def placeholderMeta : TokenMeta := ⟨"TOKEN", 18⟩

/-- The option object `{ retries: 2, factor: 1.5 }` passed to pRetry. -/
structure RetryOptions where
  retries : Nat
  factor : ℚ
deriving DecidableEq, Repr

/-- Both metadata calls use `{ retries: 2, factor: 1.5 }`. -/
def retryOpts : RetryOptions := ⟨2, 3 / 2⟩

/-- Core loop of p-retry: run attempt `attempt`; on failure with `rem`
retries remaining, recurse on the next attempt.  The oracle `f` maps the
attempt index (0-based) to that attempt's outcome. -/
def pRetryGo (f : Nat → Except String α) : Nat → Nat → Except String α
  | attempt, 0 => f attempt
  | attempt, rem + 1 =>
    match f attempt with
    | .ok a => .ok a
    | .error _ => pRetryGo f (attempt + 1) rem

/-- `pRetry(fn, opts)`: the first attempt plus up to `opts.retries` retries. -/
def pRetry (f : Nat → Except String α) (opts : RetryOptions) : Except String α :=
  pRetryGo f 0 opts.retries

/-- Backoff delay (milliseconds) scheduled before the n-th retry (n ≥ 1) by
the retry package underneath p-retry: `minTimeout * factor ^ (n - 1)` with
the package default minTimeout of 1000 ms and the configured factor. -/
def backoffDelay (opts : RetryOptions) (n : Nat) : ℚ :=
  1000 * opts.factor ^ (n - 1)

/-- The per-process `tokenCache` Map, keyed by contract address, in insertion
order. -/
abbrev TokenCache := List (String × TokenMeta)

/-- `Map.prototype.get`-style lookup. -/
def cacheLookup (c : TokenCache) (a : String) : Option TokenMeta :=
  (c.find? (fun p => p.1 = a)).map (·.2)

/-- `Map.prototype.set`: replace an existing binding in place, else append. -/
def cacheSet (c : TokenCache) (a : String) (m : TokenMeta) : TokenCache :=
  if (cacheLookup c a).isSome then
    c.map (fun p => if p.1 = a then (a, m) else p)
  else
    c ++ [(a, m)]

/-- Outcomes of the external calls one handleLog invocation may make:
the i-th attempt of `contract.symbol()`, the i-th attempt of
`contract.decimals()`, and whether `bot.sendMessage` resolves. -/
structure LogEffects where
  symbolResult : Nat → Except String String
  decimalsResult : Nat → Except String Nat
  sendOk : Bool

/-- `getTokenMeta(address)`: normalise the address, return a cache hit
immediately; on a miss fetch symbol then decimals, each under
`pRetry(..., { retries: 2, factor: 1.5 })`; only after both succeed is the
metadata built and `tokenCache.set` performed.  A failure of either fetch
propagates (the thrown error) with the cache untouched. -/
def getTokenMeta (cache : TokenCache) (eff : LogEffects) (address : String) :
    Except String (TokenMeta × TokenCache) :=
  let address := getAddress address
  match cacheLookup cache address with
  | some m => .ok (m, cache)
  | none =>
    match pRetry eff.symbolResult retryOpts with
    | .error e => .error e
    | .ok symbol =>
      match pRetry eff.decimalsResult retryOpts with
      | .error e => .error e
      | .ok decimals =>
        let meta : TokenMeta := ⟨symbol, decimals⟩
        .ok (meta, cacheSet cache address meta)

/-- Left-pad a digit string with zeros to length `n`. -/
def natPadLeft (s : String) (n : Nat) : String :=
  String.mk (List.replicate (n - s.length) '0') ++ s

/-- `ethers.formatUnits(value, decimals)`: the decimal string
`value / 10^decimals` with trailing zeros of the fraction trimmed down to at
least one digit. -/
def formatUnits (value decimals : Nat) : String :=
  let whole := value / 10 ^ decimals
  let fracDigits := natPadLeft (toString (value % 10 ^ decimals)) decimals
  let fracTrimmed := String.mk ((fracDigits.data.reverse.dropWhile (· = '0')).reverse)
  let frac := if fracTrimmed = "" then "0" else fracTrimmed
  toString whole ++ "." ++ frac

/-- `formatAmount(valueBN, decimals)`: formatUnits, falling back to the raw
integer string on a thrown error.  With a Nat decimals the embedded
formatUnits is total, so the catch branch is unreachable here. -/
def formatAmount (value decimals : Nat) : String := formatUnits value decimals

/-- `txLink(txHash)`. -/
def txLink (txHash : String) : String := "https://basescan.org/tx/" ++ txHash

/-- The emoji label the ternary in handleLog assigns to `type`. -/
def typeLabel : Classification → String
  | .Mint => "🪙 Mint"
  | .Burn => "🔥 Burn"
  | .Ignored => ""

/-- The Markdown message template of handleLog. -/
def formatMessage (cls : Classification) (meta : TokenMeta) (tokenAddr fr toA : String)
    (amountStr txHash : String) (blockNumber : Int) : String :=
  typeLabel cls ++ " detected on *Base*\n\n" ++
  "*Token:* " ++ meta.symbol ++ " (`" ++ tokenAddr ++ "`)\n" ++
  "*From:* `" ++ fr ++ "`\n" ++
  "*To:* `" ++ toA ++ "`\n" ++
  "*Amount:* `" ++ amountStr ++ "`\n" ++
  "*Tx:* [" ++ txHash ++ "](" ++ txLink txHash ++ ")\n" ++
  "*Block:* " ++ toString blockNumber

/-- Lines 105-109: `lastSeenTx.add(tx)` on the insertion-ordered Set, then,
when the size exceeds 1000, deletion of the first 200 entries yielded by the
Set's (insertion-order) iterator. -/
def recordTx (seen : List String) (tx : String) : List String :=
  let s := if tx ∈ seen then seen else seen ++ [tx]
  if s.length > 1000 then s.drop 200 else s

/-- The process-lifetime mutable state shared by the pipeline: the
`lastSeenTx` Set (insertion order) and the `tokenCache` Map. -/
structure BotState where
  lastSeenTx : List String
  tokenCache : TokenCache
deriving DecidableEq, Repr

/-- The empty startup state. -/
def st0 : BotState := ⟨[], []⟩

/-- Observable trace of one handleLog invocation: whether the parse step was
reached at all, the classification (none when skipped or the decode threw),
the metadata and message used for a dispatch attempt, and whether the
dispatch succeeded. -/
structure HandleTrace where
  parseAttempted : Bool
  classification : Option Classification
  sentMeta : Option TokenMeta
  message : Option String
  dispatched : Bool
deriving DecidableEq, Repr

/-- The trace of an invocation that did nothing observable. -/
def emptyTrace : HandleTrace := ⟨false, none, none, none, false⟩

/-- `handleLog(log)`, lines 61-113 / 217-268.  In order: the dedup membership
check (before any decoding), the parse (a decode failure is absorbed by the
outer catch with no state change), the zero-address filter, metadata fetch
with placeholder fallback on failure (the cache mutation of a successful
fetch persists regardless of what follows), message construction, dispatch,
and — only after a successful dispatch — `lastSeenTx.add` plus eviction.
A dispatch failure is absorbed by the outer catch after the cache mutation
but before the dedup-set insertion. -/
def handleLog (st : BotState) (eff : LogEffects) (log : Log) : BotState × HandleTrace :=
  if log.transactionHash ∈ st.lastSeenTx then
    (st, emptyTrace)
  else
    match parseLogTransfer log with
    | none => (st, ⟨true, none, none, none, false⟩)
    | some ev =>
      let cls := classify ev.fromAddr ev.toAddr
      if cls = .Ignored then
        (st, ⟨true, some cls, none, none, false⟩)
      else
        let tokenAddr := getAddress log.address
        let (meta, cache') :=
          match getTokenMeta st.tokenCache eff tokenAddr with
          | .ok (m, c) => (m, c)
          | .error _ => (placeholderMeta, st.tokenCache)
        let amountStr := formatAmount ev.value meta.decimals
        let msg := formatMessage cls meta tokenAddr ev.fromAddr ev.toAddr amountStr
          log.transactionHash log.blockNumber
        if eff.sendOk then
          (⟨recordTx st.lastSeenTx log.transactionHash, cache'⟩,
           ⟨true, some cls, some meta, some msg, true⟩)
        else
          (⟨st.lastSeenTx, cache'⟩, ⟨true, some cls, some meta, some msg, false⟩)

/-! ### The poll-by-range variant's block handler (lines 270-313) -/

/-- Environment of one `provider.on("block", ...)` pass: the outcome of
`provider.getLogs` for the computed range, the outcome of the i-th
`provider.getBlockNumber()` call made inside the per-log loop, and the
external-call outcomes for the i-th loop iteration's handleLog. -/
structure PassEnv where
  getLogsResult : Int → Int → Except String (List Log)
  headResult : Nat → Except String Int
  logEffects : Nat → LogEffects

/-- The per-log loop of the poll handler (lines 297-306).  For each log,
when `minConf > 1`, query the chain head: a query failure throws out of the
loop (returning `false`: the pass did not complete, state mutations so far
persist); an unconfirmed log (`log.blockNumber + minConf - 1 > latest`) is
skipped with `continue`; otherwise the log is handled.  Returns the threaded
state and whether the loop ran to completion. -/
def processLogs (minConf : Int) (env : PassEnv) : List Log → Nat → BotState → BotState × Bool
  | [], _, st => (st, true)
  | log :: rest, i, st =>
    if minConf > 1 then
      match env.headResult i with
      | .error _ => (st, false)
      | .ok latest =>
        if log.blockNumber + minConf - 1 > latest then
          processLogs minConf env rest (i + 1) st
        else
          processLogs minConf env rest (i + 1) (handleLog st (env.logEffects i) log).1
    else
      processLogs minConf env rest (i + 1) (handleLog st (env.logEffects i) log).1

/-- Observable trace of one poll pass: whether the falsy-cursor first-run
branch was taken, the computed range, whether the pass returned early on an
empty range, and whether it ran to the final cursor assignment. -/
structure PassTrace where
  firstRun : Bool
  fromBlock : Int
  toBlock : Int
  skippedEmpty : Bool
  completed : Bool
deriving DecidableEq, Repr

/-- Result of one poll pass: the cursor (`lastProcessedBlock`), the shared
bot state, and the trace. -/
structure PollStep where
  cursor : Int
  bot : BotState
  trace : PassTrace
deriving Repr

/-- One `provider.on("block", ...)` callback of the poll variant
(lines 276-312).  `if (!lastProcessedBlock) lastProcessedBlock =
blockNumber - 1` fires exactly when the cursor is 0 (the only falsy integer
here), and this assignment persists even when the pass later fails, because
it happens before any fallible call inside the same try block.  Then the
range `[lastProcessedBlock + 1, blockNumber]` is computed; an empty range
returns early; a getLogs failure is caught with the cursor unadvanced; after
the per-log loop completes, `lastProcessedBlock = blockNumber`.  A head-query
failure inside the loop propagates to the same catch, also leaving the
cursor unadvanced. -/
def onBlock (minConf : Int) (env : PassEnv) (cursor : Int) (st : BotState)
    (blockNumber : Int) : PollStep :=
  let firstRun : Bool := cursor = 0
  let cursor := if cursor = 0 then blockNumber - 1 else cursor
  let fromBlock := cursor + 1
  let toBlock := blockNumber
  if toBlock < fromBlock then
    ⟨cursor, st, ⟨firstRun, fromBlock, toBlock, true, false⟩⟩
  else
    match env.getLogsResult fromBlock toBlock with
    | .error _ => ⟨cursor, st, ⟨firstRun, fromBlock, toBlock, false, false⟩⟩
    | .ok logs =>
      match processLogs minConf env logs 0 st with
      | (st', true) => ⟨blockNumber, st', ⟨firstRun, fromBlock, toBlock, false, true⟩⟩
      | (st', false) => ⟨cursor, st', ⟨firstRun, fromBlock, toBlock, false, false⟩⟩

/-! ### The subscription-push variant's log handler (lines 123-136) -/

/-- What the push callback did with a log. -/
inductive PushOutcome where
  | invalidLog
  | deferred
  | handled
deriving DecidableEq, Repr

/-- One `provider.on(filter, ...)` callback of the push variant.  A log with
a falsy transaction hash is dropped.  With `minConfirmations > 1` the chain
head is queried inside a try: on success, an unconfirmed log gets a
`setTimeout(() => provider.getBlock(...), 30000)` (which merely re-fetches
the block and discards it — the log itself is never re-handled) and the
callback returns; but a head-query failure is swallowed by the empty catch
and control falls through to `handleLog(log)`, processing the log
immediately with the confirmation gate bypassed. -/
def onPushLog (minConfirmations : Int) (headResult : Except String Int)
    (eff : LogEffects) (st : BotState) (log : Log) :
    BotState × PushOutcome × HandleTrace :=
  if log.transactionHash = "" then (st, .invalidLog, emptyTrace)
  else if minConfirmations > 1 then
    match headResult with
    | .ok latest =>
      if log.blockNumber + minConfirmations - 1 > latest then
        (st, .deferred, emptyTrace)
      else
        let (st', tr) := handleLog st eff log
        (st', .handled, tr)
    | .error _ =>
      let (st', tr) := handleLog st eff log
      (st', .handled, tr)
  else
    let (st', tr) := handleLog st eff log
    (st', .handled, tr)

/-! ### Concrete fixtures used by the counterexamples and witnesses -/

/-- The all-zero 32-byte topic: the zero address as an indexed argument.
Also reused as an all-zero data word (amount 0). -/
def zeroTopic : String :=
  "0x0000000000000000000000000000000000000000000000000000000000000000"

/-- A topic carrying an ordinary (non-zero) address. -/
def userTopic : String :=
  "0x000000000000000000000000aabbccddeeff00112233445566778899aabbccdd"

/-- Effects where both metadata calls succeed at once and dispatch succeeds. -/
def effOk : LogEffects := ⟨fun _ => .ok "EURP", fun _ => .ok 6, true⟩

/-- Effects where every `contract.symbol()` attempt fails (transport error)
and dispatch succeeds. -/
def effMetaFail : LogEffects := ⟨fun _ => .error "ETIMEDOUT", fun _ => .ok 6, true⟩

/-- Effects where metadata succeeds but `bot.sendMessage` rejects. -/
def effSendFail : LogEffects := ⟨fun _ => .ok "EURP", fun _ => .ok 6, false⟩

/-- A mint log (Transfer from the zero address) at block 100. -/
def mintLog100 : Log :=
  ⟨"0xabc0000000000000000000000000000000000001",
   [TRANSFER_TOPIC, zeroTopic, userTopic],
   zeroTopic, "0xdeadbeef01", 100⟩

/-- A Transfer log whose sender and recipient are both the zero address. -/
def bothZeroLog : Log :=
  ⟨"0xabc0000000000000000000000000000000000001",
   [TRANSFER_TOPIC, zeroTopic, zeroTopic],
   zeroTopic, "0xdeadbeef02", 100⟩

/-- An ordinary transfer log (neither side the zero address). -/
def ordinaryLog : Log :=
  ⟨"0xabc0000000000000000000000000000000000001",
   [TRANSFER_TOPIC, userTopic, userTopic],
   zeroTopic, "0xdeadbeef03", 100⟩

/-- A burn log in the same transaction as `mintLog100`. -/
def burnLogSameTx : Log :=
  ⟨"0xabc0000000000000000000000000000000000001",
   [TRANSFER_TOPIC, userTopic, zeroTopic],
   zeroTopic, "0xdeadbeef01", 100⟩

/-- A state in which `mintLog100`'s transaction is already recorded. -/
def stSeen : BotState := ⟨["0xdeadbeef01"], []⟩

/-- Pass environment for the C1 scenario, first pass: the range fetch
returns the mint log at block 100 and the chain head reads 101. -/
def env1 : PassEnv := ⟨fun _ _ => .ok [mintLog100], fun _ => .ok 101, fun _ => effOk⟩

/-- Pass environment for the C1 scenario, second pass: the range fetch
returns no logs and the chain head reads 102. -/
def env2 : PassEnv := ⟨fun _ _ => .ok [], fun _ => .ok 102, fun _ => effOk⟩

/-- Pass environment in which every range fetch returns no logs. -/
def envEmpty : PassEnv := ⟨fun _ _ => .ok [], fun _ => .ok 1000, fun _ => effOk⟩

/-- Pass environment in which the range fetch fails with a transport error. -/
def envFail : PassEnv := ⟨fun _ _ => .error "ECONNREFUSED", fun _ => .ok 1000, fun _ => effOk⟩

/-- The decoded form of `mintLog100` (and of `bothZeroLog`'s recipient-swap). -/
def mintEv : TransferEvent :=
  ⟨"0x0000000000000000000000000000000000000000",
   "0xaabbccddeeff00112233445566778899aabbccdd", 0⟩

/-- 1001 pairwise distinct identifiers: the length-i repetitions of 'a'. -/
def c5Ids : List String := (List.range 1001).map (fun i => String.mk (List.replicate i 'a'))

/-! ### Helper lemmas -/

/-- pRetry with `{ retries: 2 }` is determined by the outcomes of attempts
0, 1 and 2. -/
lemma pRetry_eq {α : Type} (f : Nat → Except String α) :
    pRetry f retryOpts =
      match f 0 with
      | .ok a => .ok a
      | .error _ =>
        match f 1 with
        | .ok a => .ok a
        | .error _ => f 2 := rfl

lemma mem_recordTx_of_not_mem {s : List String} {tx : String} (h : tx ∉ s) :
    tx ∈ recordTx s tx := by
  unfold recordTx
  simp only [h, if_false]
  split
  · next hlen =>
    have hle : 200 ≤ s.length := by
      simp only [List.length_append, List.length_cons, List.length_nil] at hlen
      omega
    rw [List.drop_append_of_le_length hle]
    simp
  · simp

lemma handleLog_seen {st : BotState} {eff : LogEffects} {log : Log}
    (h : log.transactionHash ∈ st.lastSeenTx) :
    handleLog st eff log = (st, emptyTrace) := by
  simp [handleLog, h]

lemma handleLog_sendFail {st : BotState} {eff : LogEffects} {log : Log}
    (h : eff.sendOk = false) :
    (handleLog st eff log).1.lastSeenTx = st.lastSeenTx := by
  by_cases hmem : log.transactionHash ∈ st.lastSeenTx
  · simp [handleLog, hmem]
  · cases hparse : parseLogTransfer log with
    | none => simp [handleLog, hmem, hparse]
    | some ev =>
      by_cases hcls : classify ev.fromAddr ev.toAddr = Classification.Ignored
      · simp [handleLog, hmem, hparse, hcls]
      · cases hmeta : getTokenMeta st.tokenCache eff (getAddress log.address) with
        | ok mc =>
          obtain ⟨m, c⟩ := mc
          simp [handleLog, hmem, hparse, hcls, hmeta, h]
        | error e => simp [handleLog, hmem, hparse, hcls, hmeta, h]

lemma handleLog_dispatched_not_seen {st : BotState} {eff : LogEffects} {log : Log}
    (h : (handleLog st eff log).2.dispatched = true) :
    log.transactionHash ∉ st.lastSeenTx := by
  intro hmem
  rw [handleLog_seen hmem] at h
  simp [emptyTrace] at h

lemma handleLog_dispatched_mem {st : BotState} {eff : LogEffects} {log : Log}
    (h : (handleLog st eff log).2.dispatched = true) :
    log.transactionHash ∈ (handleLog st eff log).1.lastSeenTx := by
  have hns := handleLog_dispatched_not_seen h
  cases hparse : parseLogTransfer log with
  | none => rw [handleLog] at h; simp [hns, hparse] at h
  | some ev =>
    by_cases hcls : classify ev.fromAddr ev.toAddr = Classification.Ignored
    · rw [handleLog] at h; simp [hns, hparse, hcls] at h
    · cases hsend : eff.sendOk with
      | false =>
        rw [handleLog] at h
        cases hmeta : getTokenMeta st.tokenCache eff (getAddress log.address) with
        | ok mc => obtain ⟨m, c⟩ := mc; simp [hns, hparse, hcls, hmeta, hsend] at h
        | error e => simp [hns, hparse, hcls, hmeta, hsend] at h
      | true =>
        cases hmeta : getTokenMeta st.tokenCache eff (getAddress log.address) with
        | ok mc =>
          obtain ⟨m, c⟩ := mc
          simp [handleLog, hns, hparse, hcls, hmeta, hsend]
          exact mem_recordTx_of_not_mem hns
        | error e =>
          simp [handleLog, hns, hparse, hcls, hmeta, hsend]
          exact mem_recordTx_of_not_mem hns

/-- When the metadata fetch for a fresh, qualifying log fails, handleLog
leaves the cache untouched, uses the placeholder, and dispatches exactly when
the channel accepts. -/
lemma handleLog_fallback {st : BotState} {eff : LogEffects} {log : Log}
    {ev : TransferEvent} {e : String}
    (hmem : log.transactionHash ∉ st.lastSeenTx)
    (hparse : parseLogTransfer log = some ev)
    (hcls : classify ev.fromAddr ev.toAddr ≠ Classification.Ignored)
    (hfail : getTokenMeta st.tokenCache eff (getAddress log.address) = .error e) :
    (handleLog st eff log).1.tokenCache = st.tokenCache ∧
    (handleLog st eff log).2.sentMeta = some placeholderMeta ∧
    (handleLog st eff log).2.dispatched = eff.sendOk := by
  cases hsend : eff.sendOk with
  | false => refine ⟨?_, ?_, ?_⟩ <;> simp [handleLog, hmem, hparse, hcls, hfail, hsend]
  | true => refine ⟨?_, ?_, ?_⟩ <;> simp [handleLog, hmem, hparse, hcls, hfail, hsend]

lemma getTokenMeta_error_lookup_none {cache : TokenCache} {eff : LogEffects} {a e : String}
    (h : getTokenMeta cache eff a = .error e) :
    cacheLookup cache (getAddress a) = none := by
  cases hl : cacheLookup cache (getAddress a) with
  | none => rfl
  | some m => rw [getTokenMeta, hl] at h; simp at h

lemma recordTx_length_le {s : List String} (h : s.length ≤ 1000) (tx : String) :
    (recordTx s tx).length ≤ 1000 := by
  unfold recordTx
  by_cases hmem : tx ∈ s
  · simp only [hmem, if_true]
    split
    · simp only [List.length_drop]
      omega
    · exact h
  · simp only [hmem, if_false]
    split
    · simp only [List.length_drop, List.length_append, List.length_cons, List.length_nil]
      omega
    · next hgt =>
      simp only [List.length_append, List.length_cons, List.length_nil] at hgt ⊢
      omega

lemma foldl_recordTx_length_le (ops : List String) :
    ∀ s : List String, s.length ≤ 1000 → (List.foldl recordTx s ops).length ≤ 1000 := by
  induction ops with
  | nil => intro s h; simpa using h
  | cons x xs ih => intro s h; exact ih _ (recordTx_length_le h x)

lemma recordTx_fresh_small {s : List String} {tx : String} (hmem : tx ∉ s)
    (hlen : s.length + 1 ≤ 1000) : recordTx s tx = s ++ [tx] := by
  unfold recordTx
  simp only [hmem, if_false]
  rw [if_neg]
  simp only [List.length_append, List.length_cons, List.length_nil]
  omega

lemma recordTx_fresh_full {s : List String} {tx : String} (hmem : tx ∉ s)
    (hlen : s.length = 1000) : recordTx s tx = (s ++ [tx]).drop 200 := by
  unfold recordTx
  simp only [hmem, if_false]
  rw [if_pos]
  simp only [List.length_append, List.length_cons, List.length_nil]
  omega

/-- Folding record over at most 1000 pairwise fresh identifiers from the
empty set inserts them in order with no eviction. -/
lemma foldl_recordTx_id : ∀ (l : List String), l.Nodup → l.length ≤ 1000 →
    List.foldl recordTx [] l = l := by
  intro l
  induction l using List.reverseRecOn with
  | nil => intro _ _; rfl
  | append_singleton xs x ih =>
    intro hnd hlen
    obtain ⟨hnd1, _, hdisj⟩ := List.nodup_append.mp hnd
    have hx : x ∉ xs := fun hx => hdisj hx (List.mem_singleton_self x)
    have hlen1 : xs.length + 1 ≤ 1000 := by
      simp only [List.length_append, List.length_cons, List.length_nil] at hlen
      omega
    rw [List.foldl_append, List.foldl_cons, List.foldl_nil,
      ih hnd1 (by omega), recordTx_fresh_small hx hlen1]

/-- Branch structure of one poll pass, stated over the computed range
`[(if c = 0 then B - 1 else c) + 1, B]` exactly as onBlock computes it. -/
lemma onBlock_cases (minConf : Int) (env : PassEnv) (c B : Int) (st : BotState) :
    (onBlock minConf env c st B).trace.fromBlock = (if c = 0 then B - 1 else c) + 1 ∧
    (onBlock minConf env c st B).trace.toBlock = B ∧
    ((onBlock minConf env c st B).trace.skippedEmpty = true ↔
      B < (if c = 0 then B - 1 else c) + 1) ∧
    ((onBlock minConf env c st B).trace.skippedEmpty = true →
      (onBlock minConf env c st B).bot = st) ∧
    ((onBlock minConf env c st B).trace.completed = true →
      (onBlock minConf env c st B).cursor = B ∧
      ¬ B < (if c = 0 then B - 1 else c) + 1) ∧
    ((onBlock minConf env c st B).trace.completed = false →
      (onBlock minConf env c st B).cursor = (if c = 0 then B - 1 else c)) := by
  by_cases hskip : B < (if c = 0 then B - 1 else c) + 1
  · simp [onBlock, if_pos hskip, hskip]
  · cases hlogs : env.getLogsResult ((if c = 0 then B - 1 else c) + 1) B with
    | error e => simp [onBlock, if_neg hskip, hlogs, hskip]
    | ok logs =>
      cases hproc : processLogs minConf env logs 0 st with
      | mk st' completed =>
        cases completed with
        | true => simp [onBlock, if_neg hskip, hlogs, hproc, hskip]
        | false => simp [onBlock, if_neg hskip, hlogs, hproc, hskip]

lemma c5Ids_nodup : c5Ids.Nodup := by
  refine List.Nodup.map ?_ (List.nodup_range 1001)
  intro a b h
  have h2 : List.replicate a 'a' = List.replicate b 'a' := by injection h
  have h3 := congrArg List.length h2
  simpa using h3

lemma c5Ids_length : c5Ids.length = 1001 := by
  simp [c5Ids]

/-! ### Claim theorems -/

/-- Claim C1: the claim says a not-yet-confirmed log (C = 3, log at block
100, head 101) is deferred, the cursor is not advanced past its block, and
it is notified once the head reaches 102.  The poll loop instead skips the
log with `continue` and still runs `lastProcessedBlock = blockNumber`, so
pass 1 (notification height 100, head 101) sends nothing AND advances the
cursor to 100; pass 2 (height 102, head 102 ≥ required 102) fetches only
[101, 102], which excludes block 100, and completes with the log never
notified.  This theorem evaluates both passes at that failing input. -/
theorem c1_unconfirmed_log_dropped :
    mintLog100.blockNumber + 3 - 1 = 102 ∧
    env1.headResult 0 = .ok 101 ∧
    (onBlock 3 env1 0 st0 100).trace.completed = true ∧
    (onBlock 3 env1 0 st0 100).cursor = 100 ∧
    (onBlock 3 env1 0 st0 100).bot.lastSeenTx = [] ∧
    env2.headResult 0 = .ok 102 ∧
    (onBlock 3 env2 (onBlock 3 env1 0 st0 100).cursor
      (onBlock 3 env1 0 st0 100).bot 102).trace.fromBlock = 101 ∧
    (onBlock 3 env2 (onBlock 3 env1 0 st0 100).cursor
      (onBlock 3 env1 0 st0 100).bot 102).cursor = 102 ∧
    (onBlock 3 env2 (onBlock 3 env1 0 st0 100).cursor
      (onBlock 3 env1 0 st0 100).bot 102).bot.lastSeenTx = [] :=
  ⟨rfl, rfl, rfl, rfl, rfl, rfl, rfl, rfl, rfl⟩

/-- Claim C2 counterexample: a Transfer log whose sender and recipient are
both the zero address is classified Mint — not Ignored as the claim states —
and a notification is dispatched for it. -/
theorem c2_double_zero_counterexample :
    classify ZERO ZERO = Classification.Mint ∧
    (handleLog st0 effOk bothZeroLog).2.classification = some Classification.Mint ∧
    (handleLog st0 effOk bothZeroLog).2.dispatched = true :=
  ⟨rfl, rfl, rfl⟩

/-- Claim C2 (amended): classification is Mint iff the sender is the zero
address (even when the recipient is also zero), Burn iff the recipient is
the zero address and the sender is not, and Ignored iff neither is zero;
Ignored logs produce no notification and no state change. -/
theorem c2_classification_amended :
    (∀ fr toA : String,
      (classify fr toA = Classification.Mint ↔ jsToLower fr = ZERO) ∧
      (classify fr toA = Classification.Burn ↔
        jsToLower fr ≠ ZERO ∧ jsToLower toA = ZERO) ∧
      (classify fr toA = Classification.Ignored ↔
        jsToLower fr ≠ ZERO ∧ jsToLower toA ≠ ZERO)) ∧
    (∀ (st : BotState) (eff : LogEffects) (log : Log) (ev : TransferEvent),
      parseLogTransfer log = some ev →
      classify ev.fromAddr ev.toAddr = Classification.Ignored →
      (handleLog st eff log).1 = st ∧ (handleLog st eff log).2.dispatched = false) := by
  constructor
  · intro fr toA
    by_cases h1 : jsToLower fr = ZERO <;> by_cases h2 : jsToLower toA = ZERO <;>
      simp [classify, h1, h2]
  · intro st eff log ev hparse hcls
    by_cases hmem : log.transactionHash ∈ st.lastSeenTx
    · rw [handleLog_seen hmem]
      exact ⟨rfl, rfl⟩
    · constructor <;> simp [handleLog, hmem, hparse, hcls]

/-- Witness for C2 (amended), at an ordinary transfer log: classified
Ignored, no state change, no dispatch. -/
theorem c2_classification_amended_witness :
    parseLogTransfer ordinaryLog =
      some ⟨"0xaabbccddeeff00112233445566778899aabbccdd",
            "0xaabbccddeeff00112233445566778899aabbccdd", 0⟩ ∧
    classify "0xaabbccddeeff00112233445566778899aabbccdd"
      "0xaabbccddeeff00112233445566778899aabbccdd" = Classification.Ignored ∧
    (handleLog st0 effOk ordinaryLog).1 = st0 ∧
    (handleLog st0 effOk ordinaryLog).2.dispatched = false := by
  have h := c2_classification_amended.2 st0 effOk ordinaryLog
    ⟨"0xaabbccddeeff00112233445566778899aabbccdd",
     "0xaabbccddeeff00112233445566778899aabbccdd", 0⟩ rfl rfl
  exact ⟨rfl, rfl, h.1, h.2⟩

/-- Claim C3: the claim (and the spec) say a head-query failure during the
confirmation check must be treated as "not yet eligible" — defer, do not
process.  In the subscription-push handler the failure is swallowed by the
empty catch and control falls through to handleLog, so the log is processed
and notified immediately.  Evaluated at the failing input (C = 3, log at
block 100): with a working head query returning 101 the same log is
deferred, but with the query failing it is handled and dispatched. -/
theorem c3_head_failure_handles_immediately :
    (onPushLog 3 (.ok 101) effOk st0 mintLog100).2.1 = PushOutcome.deferred ∧
    (onPushLog 3 (.error "ETIMEDOUT") effOk st0 mintLog100).2.1 = PushOutcome.handled ∧
    (onPushLog 3 (.error "ETIMEDOUT") effOk st0 mintLog100).2.2.dispatched = true ∧
    (onPushLog 3 (.error "ETIMEDOUT") effOk st0 mintLog100).1.lastSeenTx =
      ["0xdeadbeef01"] :=
  ⟨rfl, rfl, rfl, rfl⟩

/-- Claim C4: the dedup membership check precedes all decoding work (a seen
transaction returns with the parse never attempted and no state change), a
failed dispatch leaves the dedup set unchanged, and a successful dispatch
records the transaction. -/
theorem c4_dedup_check_and_record (st : BotState) (eff : LogEffects) (log : Log) :
    (log.transactionHash ∈ st.lastSeenTx → handleLog st eff log = (st, emptyTrace)) ∧
    (eff.sendOk = false → (handleLog st eff log).1.lastSeenTx = st.lastSeenTx) ∧
    ((handleLog st eff log).2.dispatched = true →
      log.transactionHash ∈ (handleLog st eff log).1.lastSeenTx) :=
  ⟨fun h => handleLog_seen h, fun h => handleLog_sendFail h,
   fun h => handleLog_dispatched_mem h⟩

/-- Witness for C4: a seen transaction is skipped undecoded, and a failed
dispatch leaves the dedup set unchanged. -/
theorem c4_dedup_check_and_record_witness :
    mintLog100.transactionHash ∈ stSeen.lastSeenTx ∧
    handleLog stSeen effOk mintLog100 = (stSeen, emptyTrace) ∧
    effSendFail.sendOk = false ∧
    (handleLog st0 effSendFail mintLog100).1.lastSeenTx = st0.lastSeenTx := by
  have hm : mintLog100.transactionHash ∈ stSeen.lastSeenTx := by decide
  exact ⟨hm, (c4_dedup_check_and_record stSeen effOk mintLog100).1 hm, rfl,
    (c4_dedup_check_and_record st0 effSendFail mintLog100).2.1 rfl⟩

/-- Claim C5: the dedup set never exceeds 1000 entries under record
operations from startup; an insertion into a full set of 1000 evicts the
200 oldest-inserted entries; and after 1001 distinct sequential insertions
the set is the last 801 identifiers, so its size is ≤ 1000 and the 200
earliest-inserted identifiers are absent. -/
theorem c5_dedup_bound (ops ids : List String) (hnd : ids.Nodup)
    (hlen : ids.length = 1001) :
    (List.foldl recordTx [] ops).length ≤ 1000 ∧
    (∀ (s : List String) (tx : String), s.length = 1000 → tx ∉ s →
        recordTx s tx = (s ++ [tx]).drop 200) ∧
    List.foldl recordTx [] ids = ids.drop 200 ∧
    ∀ x ∈ ids.take 200, x ∉ List.foldl recordTx [] ids := by
  have hne : ids ≠ [] := by intro h; rw [h] at hlen; simp at hlen
  obtain ⟨xs, x, heq⟩ : ∃ xs x, ids = xs ++ [x] :=
    ⟨ids.dropLast, ids.getLast hne, (List.dropLast_append_getLast hne).symm⟩
  have hmain : List.foldl recordTx [] ids = ids.drop 200 := by
    subst heq
    obtain ⟨hnd1, _, hdisj⟩ := List.nodup_append.mp hnd
    have hx : x ∉ xs := fun hx => hdisj hx (List.mem_singleton_self x)
    have hxs : xs.length = 1000 := by
      simp only [List.length_append, List.length_cons, List.length_nil] at hlen
      omega
    rw [List.foldl_append, List.foldl_cons, List.foldl_nil,
      foldl_recordTx_id xs hnd1 (by omega), recordTx_fresh_full hx hxs]
  refine ⟨foldl_recordTx_length_le ops [] (by simp), ?_, hmain, ?_⟩
  · intro s tx hs htx
    exact recordTx_fresh_full htx hs
  · intro y hy
    rw [hmain]
    have hsplit : ids.take 200 ++ ids.drop 200 = ids := List.take_append_drop 200 ids
    have hnd2 : (ids.take 200 ++ ids.drop 200).Nodup := by rw [hsplit]; exact hnd
    obtain ⟨_, _, hdisj⟩ := List.nodup_append.mp hnd2
    exact fun hmem => hdisj hy hmem

/-- Witness for C5, at 1001 concrete pairwise distinct identifiers. -/
theorem c5_dedup_bound_witness :
    c5Ids.Nodup ∧ c5Ids.length = 1001 ∧
    List.foldl recordTx [] c5Ids = c5Ids.drop 200 ∧
    ∀ x ∈ c5Ids.take 200, x ∉ List.foldl recordTx [] c5Ids :=
  ⟨c5Ids_nodup, c5Ids_length,
   (c5_dedup_bound [] c5Ids c5Ids_nodup c5Ids_length).2.2.1,
   (c5_dedup_bound [] c5Ids c5Ids_nodup c5Ids_length).2.2.2⟩

/-- Claim C6 counterexample: after the first notification has height 0 and
is processed successfully, the cursor holds 0, which the falsy test
`if (!lastProcessedBlock)` mistakes for "no prior state": the next
notification (height 5) is treated as a first run with range [5, 5] instead
of the claimed [lastProcessed + 1, B] = [1, 5]. -/
theorem c6_zero_cursor_counterexample :
    (onBlock 1 envEmpty 0 st0 0).trace.completed = true ∧
    (onBlock 1 envEmpty 0 st0 0).cursor = 0 ∧
    (onBlock 1 envEmpty (onBlock 1 envEmpty 0 st0 0).cursor
      (onBlock 1 envEmpty 0 st0 0).bot 5).trace.firstRun = true ∧
    (onBlock 1 envEmpty (onBlock 1 envEmpty 0 st0 0).cursor
      (onBlock 1 envEmpty 0 st0 0).bot 5).trace.fromBlock = 5 ∧
    ¬ (onBlock 1 envEmpty (onBlock 1 envEmpty 0 st0 0).cursor
      (onBlock 1 envEmpty 0 st0 0).bot 5).trace.fromBlock = 0 + 1 :=
  ⟨rfl, rfl, rfl, rfl, by decide⟩

/-- Claim C6 (amended): on a first-run pass (cursor 0) the range is exactly
[B, B] and is never empty-skipped; on a pass whose stored cursor c is
nonzero the range is [c + 1, B], and when B < c + 1 the pass is skipped as
an empty range with no error, no state change and no cursor change.  (When
the cursor holds 0 after processing a height-0 notification, the next pass
is treated as a first run again — see the counterexample.) -/
theorem c6_range_rule (minConf : Int) (env : PassEnv) (st : BotState) (c B : Int) :
    (c = 0 → (onBlock minConf env c st B).trace.fromBlock = B ∧
      (onBlock minConf env c st B).trace.toBlock = B ∧
      (onBlock minConf env c st B).trace.skippedEmpty = false) ∧
    (c ≠ 0 → (onBlock minConf env c st B).trace.fromBlock = c + 1 ∧
      (onBlock minConf env c st B).trace.toBlock = B) ∧
    (c ≠ 0 → B < c + 1 →
      (onBlock minConf env c st B).trace.skippedEmpty = true ∧
      (onBlock minConf env c st B).cursor = c ∧
      (onBlock minConf env c st B).bot = st) := by
  obtain ⟨h1, h2, h3, h4, h5, h6⟩ := onBlock_cases minConf env c B st
  refine ⟨?_, ?_, ?_⟩
  · intro hc
    subst hc
    rw [if_pos rfl] at h1 h3
    refine ⟨by omega, h2, ?_⟩
    cases hse : (onBlock minConf env 0 st B).trace.skippedEmpty with
    | false => rfl
    | true => exact absurd (h3.mp hse) (by omega)
  · intro hc
    rw [if_neg hc] at h1
    exact ⟨h1, h2⟩
  · intro hc hB
    rw [if_neg hc] at h3 h5 h6
    have hse := h3.mpr hB
    have hcomp : (onBlock minConf env c st B).trace.completed = false := by
      cases hcv : (onBlock minConf env c st B).trace.completed with
      | false => rfl
      | true => exact absurd hB (h5 hcv).2
    exact ⟨hse, h6 hcomp, h4 hse⟩

/-- Witness for C6 (amended): a first-run pass at height 7, a cursor-3 pass
at height 7, and an empty-range skip (cursor 5, height 2). -/
theorem c6_range_rule_witness :
    ((onBlock 1 envEmpty 0 st0 7).trace.fromBlock = 7 ∧
      (onBlock 1 envEmpty 0 st0 7).trace.toBlock = 7 ∧
      (onBlock 1 envEmpty 0 st0 7).trace.skippedEmpty = false) ∧
    ((3 : Int) ≠ 0 ∧ (onBlock 1 envEmpty 3 st0 7).trace.fromBlock = 3 + 1 ∧
      (onBlock 1 envEmpty 3 st0 7).trace.toBlock = 7) ∧
    ((5 : Int) ≠ 0 ∧ (2 : Int) < 5 + 1 ∧
      (onBlock 1 envEmpty 5 st0 2).trace.skippedEmpty = true ∧
      (onBlock 1 envEmpty 5 st0 2).cursor = 5 ∧
      (onBlock 1 envEmpty 5 st0 2).bot = st0) := by
  refine ⟨(c6_range_rule 1 envEmpty st0 0 7).1 rfl, ⟨by decide, ?_⟩, ⟨by decide, by decide, ?_⟩⟩
  · exact (c6_range_rule 1 envEmpty st0 3 7).2.1 (by decide)
  · exact (c6_range_rule 1 envEmpty st0 5 2).2.2 (by decide) (by decide)

/-- Claim C7 counterexample: on the very first pass (cursor 0, notification
height 5) with the log fetch failing, the pass does not complete, yet the
cursor has advanced from 0 to 4 — the first-run assignment
`lastProcessedBlock = blockNumber - 1` persists through the failure,
contradicting "if processing raises an unrecoverable error mid-range, the
cursor is not advanced". -/
theorem c7_failed_first_pass_counterexample :
    (onBlock 1 envFail 0 st0 5).trace.completed = false ∧
    (onBlock 1 envFail 0 st0 5).cursor = 4 ∧
    ¬ (onBlock 1 envFail 0 st0 5).cursor = 0 :=
  ⟨rfl, rfl, by decide⟩

/-- Claim C7 (amended): on every pass whose stored cursor c is nonzero, the
cursor never moves backward; a pass that does not complete (empty-range
skip, fetch failure, or a head-query failure mid-loop) leaves the cursor
unchanged; a completed pass sets the cursor to the notification height B
with B ≥ c + 1; and after the cursor holds a nonzero B, the next computed
range starts at B + 1.  (On the very first pass the cursor is set to B - 1
before processing and keeps that value even if the pass then fails — see
the counterexample.) -/
theorem c7_cursor_rule (minConf : Int) (env : PassEnv) (c B : Int) (st : BotState)
    (hc : c ≠ 0) :
    c ≤ (onBlock minConf env c st B).cursor ∧
    ((onBlock minConf env c st B).trace.completed = false →
      (onBlock minConf env c st B).cursor = c) ∧
    ((onBlock minConf env c st B).trace.completed = true →
      (onBlock minConf env c st B).cursor = B ∧ c + 1 ≤ B) ∧
    (∀ (envN : PassEnv) (stN : BotState) (BN : Int), B ≠ 0 →
      (onBlock minConf envN B stN BN).trace.fromBlock = B + 1) := by
  obtain ⟨h1, h2, h3, h4, h5, h6⟩ := onBlock_cases minConf env c B st
  rw [if_neg hc] at h1 h3 h5 h6
  refine ⟨?_, h6, ?_, ?_⟩
  · cases hcv : (onBlock minConf env c st B).trace.completed with
    | false => have := h6 hcv; omega
    | true => have := h5 hcv; omega
  · intro hcv
    obtain ⟨ha, hb⟩ := h5 hcv
    exact ⟨ha, by omega⟩
  · intro envN stN BN hB
    have hfb := (onBlock_cases minConf envN B BN stN).1
    rw [if_neg hB] at hfb
    exact hfb

/-- Witness for C7 (amended), at cursor 3 and height 7 over an empty range
fetch: the pass completes, the cursor advances to 7, and the next computed
range starts at 8. -/
theorem c7_cursor_rule_witness :
    (3 : Int) ≠ 0 ∧
    (3 : Int) ≤ (onBlock 1 envEmpty 3 st0 7).cursor ∧
    (onBlock 1 envEmpty 3 st0 7).cursor = 7 ∧
    (onBlock 1 envEmpty 7 st0 9).trace.fromBlock = 7 + 1 := by
  have h := c7_cursor_rule 1 envEmpty 3 7 st0 (by decide)
  exact ⟨by decide, h.1, (h.2.2.1 rfl).1, h.2.2.2 envEmpty st0 9 (by decide)⟩

/-- Claim C8: the metadata calls run under pRetry with `{ retries: 2,
factor: 1.5 }` — the outcome depends only on attempts 0..2, a success at
attempt 2 after two failures is returned, three failures propagate the
last error, and the scheduled backoff grows by the factor 3/2 between
consecutive retries — and when the metadata fetch for a fresh qualifying
log ultimately fails, handleLog uses the placeholder
`{symbol: "TOKEN", decimals: 18}` and still attempts the dispatch. -/
theorem c8_retry_and_fallback :
    retryOpts.retries = 2 ∧
    (∀ (α : Type) (f g : Nat → Except String α), (∀ i, i ≤ 2 → f i = g i) →
      pRetry f retryOpts = pRetry g retryOpts) ∧
    (∀ (α : Type) (f : Nat → Except String α) (a : α) (e0 e1 : String),
      f 0 = .error e0 → f 1 = .error e1 → f 2 = .ok a →
      pRetry f retryOpts = .ok a) ∧
    (∀ (α : Type) (f : Nat → Except String α) (e0 e1 e2 : String),
      f 0 = .error e0 → f 1 = .error e1 → f 2 = .error e2 →
      pRetry f retryOpts = .error e2) ∧
    (∀ n : Nat, 1 ≤ n →
      backoffDelay retryOpts (n + 1) = retryOpts.factor * backoffDelay retryOpts n) ∧
    (∀ (st : BotState) (eff : LogEffects) (log : Log) (ev : TransferEvent) (e : String),
      log.transactionHash ∉ st.lastSeenTx → parseLogTransfer log = some ev →
      classify ev.fromAddr ev.toAddr ≠ Classification.Ignored →
      getTokenMeta st.tokenCache eff (getAddress log.address) = .error e →
      (handleLog st eff log).2.sentMeta = some placeholderMeta ∧
      (handleLog st eff log).2.dispatched = eff.sendOk) := by
  refine ⟨rfl, ?_, ?_, ?_, ?_, ?_⟩
  · intro α f g h
    have h0 := h 0 (by omega)
    have h1 := h 1 (by omega)
    have h2 := h 2 (by omega)
    rw [pRetry_eq f, pRetry_eq g, h0, h1, h2]
  · intro α f a e0 e1 h0 h1 h2
    simp [pRetry_eq f, h0, h1, h2]
  · intro α f e0 e1 e2 h0 h1 h2
    simp [pRetry_eq f, h0, h1, h2]
  · intro n hn
    obtain ⟨m, rfl⟩ : ∃ m, n = m + 1 := ⟨n - 1, by omega⟩
    simp only [backoffDelay, retryOpts, Nat.add_sub_cancel]
    rw [pow_succ]
    ring
  · intro st eff log ev e hmem hparse hcls hfail
    exact ⟨(handleLog_fallback hmem hparse hcls hfail).2.1,
      (handleLog_fallback hmem hparse hcls hfail).2.2⟩

/-- Witness for C8: the all-failing symbol oracle ultimately fails after
attempts 0..2, the backoff doubles-by-1.5 between retries 1 and 2, and the
mint log is still notified with the placeholder metadata. -/
theorem c8_retry_and_fallback_witness :
    effMetaFail.symbolResult 0 = .error "ETIMEDOUT" ∧
    effMetaFail.symbolResult 1 = .error "ETIMEDOUT" ∧
    effMetaFail.symbolResult 2 = .error "ETIMEDOUT" ∧
    pRetry effMetaFail.symbolResult retryOpts = .error "ETIMEDOUT" ∧
    (1 : Nat) ≤ 1 ∧
    backoffDelay retryOpts 2 = retryOpts.factor * backoffDelay retryOpts 1 ∧
    mintLog100.transactionHash ∉ st0.lastSeenTx ∧
    parseLogTransfer mintLog100 = some mintEv ∧
    getTokenMeta st0.tokenCache effMetaFail (getAddress mintLog100.address) =
      .error "ETIMEDOUT" ∧
    (handleLog st0 effMetaFail mintLog100).2.sentMeta = some placeholderMeta ∧
    (handleLog st0 effMetaFail mintLog100).2.dispatched = effMetaFail.sendOk := by
  have hfail := c8_retry_and_fallback.2.2.2.1 String effMetaFail.symbolResult
    "ETIMEDOUT" "ETIMEDOUT" "ETIMEDOUT" rfl rfl rfl
  have hback := c8_retry_and_fallback.2.2.2.2.1 1 (by decide)
  have hfb := c8_retry_and_fallback.2.2.2.2.2 st0 effMetaFail mintLog100 mintEv
    "ETIMEDOUT" (by decide) rfl (by decide) rfl
  exact ⟨rfl, rfl, rfl, hfail, by decide, hback, by decide, rfl, rfl, hfb.1, hfb.2⟩

/-- Claim C9: when the metadata fetch fails and the placeholder is used, the
token cache is left unchanged (the placeholder is not cached), so a lookup
for the same contract address still misses and the next log re-attempts the
on-chain fetch. -/
theorem c9_placeholder_not_cached (st : BotState) (eff : LogEffects) (log : Log)
    (ev : TransferEvent) (e : String)
    (hmem : log.transactionHash ∉ st.lastSeenTx)
    (hparse : parseLogTransfer log = some ev)
    (hcls : classify ev.fromAddr ev.toAddr ≠ Classification.Ignored)
    (hfail : getTokenMeta st.tokenCache eff (getAddress log.address) = .error e) :
    (handleLog st eff log).1.tokenCache = st.tokenCache ∧
    (handleLog st eff log).2.sentMeta = some placeholderMeta ∧
    cacheLookup (handleLog st eff log).1.tokenCache (getAddress log.address) = none := by
  obtain ⟨h1, h2, _⟩ := handleLog_fallback hmem hparse hcls hfail
  refine ⟨h1, h2, ?_⟩
  rw [h1]
  exact getTokenMeta_error_lookup_none hfail

/-- Witness for C9, at the mint log with the all-failing metadata oracle. -/
theorem c9_placeholder_not_cached_witness :
    mintLog100.transactionHash ∉ st0.lastSeenTx ∧
    parseLogTransfer mintLog100 = some mintEv ∧
    classify mintEv.fromAddr mintEv.toAddr ≠ Classification.Ignored ∧
    getTokenMeta st0.tokenCache effMetaFail (getAddress mintLog100.address) =
      .error "ETIMEDOUT" ∧
    (handleLog st0 effMetaFail mintLog100).1.tokenCache = st0.tokenCache ∧
    (handleLog st0 effMetaFail mintLog100).2.sentMeta = some placeholderMeta ∧
    cacheLookup (handleLog st0 effMetaFail mintLog100).1.tokenCache
      (getAddress mintLog100.address) = none := by
  have h := c9_placeholder_not_cached st0 effMetaFail mintLog100 mintEv "ETIMEDOUT"
    (by decide) rfl (by decide) rfl
  exact ⟨by decide, rfl, by decide, rfl, h.1, h.2.1, h.2.2⟩

/-- Claim C10: deduplication is keyed by the transaction hash alone — after
a log's notification is successfully dispatched, any later log of the same
transaction is returned before decoding, with no state change, no decode
and no notification. -/
theorem c10_tx_level_dedup (st : BotState) (e1 e2 : LogEffects) (l1 l2 : Log)
    (hsame : l2.transactionHash = l1.transactionHash)
    (h1 : (handleLog st e1 l1).2.dispatched = true) :
    handleLog (handleLog st e1 l1).1 e2 l2 = ((handleLog st e1 l1).1, emptyTrace) := by
  apply handleLog_seen
  rw [hsame]
  exact handleLog_dispatched_mem h1

/-- Witness for C10: a mint log and a burn log in the same transaction —
the second is skipped undecoded after the first dispatches. -/
theorem c10_tx_level_dedup_witness :
    burnLogSameTx.transactionHash = mintLog100.transactionHash ∧
    (handleLog st0 effOk mintLog100).2.dispatched = true ∧
    handleLog (handleLog st0 effOk mintLog100).1 effOk burnLogSameTx =
      ((handleLog st0 effOk mintLog100).1, emptyTrace) :=
  ⟨rfl, rfl, c10_tx_level_dedup st0 effOk effOk mintLog100 burnLogSameTx rfl rfl⟩

end EurpBot
